import Mathlib

/-!
# Verification of the push-to-talk voice dictation pipeline

Shallow embedding of the core of the Cross-Platform-Voice-Dictation
repository: the `AudioRecorder` (audio_recorder.py), the audio device
selection logic (audio_device.py), the recording-session controller
(voice_ptt.py), the transcription text normalization (transcription.py)
and the clipboard-based text injection (text_input.py).

Machine integers are modelled as `Nat`/`Int`; Python floats that only
undergo division and truncation are modelled as `ℚ`; Python functions
that may return `None` are modelled with `Option`; exceptions are
modelled with `Except` where the code catches them.
-/

namespace VoicePtt

/-! ## Configuration constants (config.py) -/

/-- config.py: `CHANNELS = 1`. -/
def CHANNELS : Nat := 1

/-- config.py: `PREFERRED_SAMPLE_RATES = [44100, 48000, 16000, 22050, 8000]`. -/
def PREFERRED_SAMPLE_RATES : List Nat := [44100, 48000, 16000, 22050, 8000]

/-! ## AudioRecorder (audio_recorder.py)

An audio chunk (one callback delivery, `indata.copy()`) is a list of PCM
samples; an audio file records the concatenated samples and the sample
rate it was written with. -/

/-- One PCM chunk appended by the capture callback. -/
abbrev Chunk : Type := List Int

/-- The WAV file produced by `save_audio`: concatenated samples plus rate. -/
structure AudioFile where
  samples : List Int
  rate : Nat
deriving DecidableEq, Repr

/-- Mutable state of `AudioRecorder` (audio_recorder.py, `__init__`). -/
structure Recorder where
  is_recording : Bool
  should_stop : Bool
  audio_data : List Chunk
  sample_rate : Option Nat
  channels : Option Nat
  device : Option Nat
deriving DecidableEq

/-- `AudioRecorder()` initial state. -/
def Recorder.init : Recorder :=
  { is_recording := false, should_stop := false, audio_data := []
  , sample_rate := none, channels := none, device := none }

/-- The device/rate/channels triple produced by `get_audio_device_info`. -/
structure DeviceConfig where
  device : Option Nat
  rate : Nat
  channels : Nat
deriving DecidableEq, Repr

/-- Outcome of `AudioRecorder.start_recording`: an early `return` because a
recording is already in progress, a successful stream start, or a raised
exception from opening the stream (re-raised to the caller). -/
inductive StartOutcome where
  | noop
  | started
  | errored
deriving DecidableEq, Repr

/-- `AudioRecorder.start_recording` (audio_recorder.py lines 25-69).
`streamOk` models whether `sd.InputStream(...)`/`stream.start()` raises.
When `is_recording` is already true the method returns immediately,
touching nothing.  Otherwise it fetches the device configuration, clears
the chunk buffer, sets `is_recording`, resets `should_stop`, and opens
the stream; if the stream raises, `is_recording` is reset to false and
the exception propagates. -/
def start_recording (r : Recorder) (cfg : DeviceConfig) (streamOk : Bool) :
    StartOutcome × Recorder :=
  if r.is_recording then
    (.noop, r)
  else
    let r1 : Recorder :=
      { r with device := cfg.device, sample_rate := some cfg.rate
             , channels := some cfg.channels
             , audio_data := [], is_recording := true, should_stop := false }
    if streamOk then
      (.started, r1)
    else
      (.errored, { r1 with is_recording := false })

/-- `AudioRecorder.save_audio` (audio_recorder.py lines 99-124): returns
`none` on an empty chunk buffer, otherwise the concatenation of all chunks
in arrival order, written at the recorded sample rate (44100 stands in when
no rate was ever set, which the real code would fault on; it is unreachable
from `stop_recording` with a nonempty buffer after a `start_recording`). -/
def save_audio (r : Recorder) : Option AudioFile :=
  if r.audio_data = [] then none
  else some { samples := r.audio_data.flatten, rate := r.sample_rate.getD 44100 }

/-- `AudioRecorder.stop_recording` (audio_recorder.py lines 71-97).
Returns `none` immediately (state untouched) when `is_recording` is false
and the chunk buffer is empty; otherwise clears `is_recording`, sets
`should_stop`, closes the stream, and returns the saved file when at
least one chunk was collected, `none` otherwise. -/
def stop_recording (r : Recorder) : Option AudioFile × Recorder :=
  if ¬r.is_recording ∧ r.audio_data = [] then
    (none, r)
  else
    let r1 : Recorder := { r with is_recording := false, should_stop := true }
    if r1.audio_data ≠ [] then
      (save_audio r1, r1)
    else
      (none, r1)

/-! ## Device selection (audio_device.py `get_audio_device_info`)

The interaction with the sound subsystem is abstracted into an
environment: the default input device's index, its reported native
default sample rate, and the oracle `check channels rate` standing for
whether `sd.check_input_settings(device=default, channels, rate, dtype)`
succeeds. -/

/-- Environment seen by `get_audio_device_info`. -/
structure DevEnv where
  defaultInput : Nat
  nativeRate : Nat
  check : Nat → Nat → Bool

/-- Which path of `get_audio_device_info` produced the configuration. -/
inductive SelPath where
  | primary
  | rateFallback
  | stereoFallback
  | outerDefault
deriving DecidableEq, Repr

/-- audio_device.py lines 226-231: use the device's default sample rate
when it is in the preferred list, else fall back to 44100. -/
def pick_initial_rate (native : Nat) : Nat :=
  if native ∈ PREFERRED_SAMPLE_RATES then native else 44100

/-- The body of `get_audio_device_info` inside the outer `try`
(audio_device.py lines 208-275): validate the initial candidate, then
each remaining preferred rate in order, then a stereo retry at the
device's native rate; if all fail, raise
`Exception("Could not find compatible audio configuration")`. -/
def get_audio_device_info_inner (env : DevEnv) :
    Except String (DeviceConfig × SelPath) :=
  let selected_rate := pick_initial_rate env.nativeRate
  if env.check CHANNELS selected_rate then
    .ok ({ device := some env.defaultInput, rate := selected_rate
         , channels := CHANNELS }, .primary)
  else
    match PREFERRED_SAMPLE_RATES.find?
        (fun rate => rate ≠ selected_rate && env.check CHANNELS rate) with
    | some rate =>
        .ok ({ device := some env.defaultInput, rate := rate
             , channels := CHANNELS }, .rateFallback)
    | none =>
        if env.check 2 env.nativeRate then
          .ok ({ device := some env.defaultInput, rate := env.nativeRate
               , channels := 2 }, .stereoFallback)
        else
          .error "Could not find compatible audio configuration"

/-- `get_audio_device_info` (audio_device.py lines 203-280): the outer
`except Exception` catches everything raised inside — including the
"no compatible configuration" exception — prints a message and returns
the system-default triple `(None, 44100, channels)`. The function
therefore always returns a configuration and never propagates an
error. -/
def get_audio_device_info (env : DevEnv) : DeviceConfig × SelPath :=
  match get_audio_device_info_inner env with
  | .ok r => r
  | .error _ => ({ device := none, rate := 44100, channels := CHANNELS }, .outerDefault)

/-! ## Stop-transition timeout (voice_ptt.py `_stop_recording_thread`) -/

/-- Python `int()` applied to a nonnegative-or-negative rational:
truncation toward zero. -/
def pyInt (q : ℚ) : ℤ := if 0 ≤ q then ⌊q⌋ else ⌈q⌉

/-- voice_ptt.py line 78:
`dynamic_timeout = max(30, 30 + int(recording_duration / 60) * 10)`,
with `recording_duration` in seconds. -/
def dynamic_timeout (d : ℚ) : ℤ := max 30 (30 + pyInt (d / 60) * 10)

/-- voice_ptt.py line 76: the duration fed to the timeout computation is
`time.time() - self._recording_start_time` when a start time was recorded,
else `0`. -/
def recording_duration (startTime : Option ℚ) (now : ℚ) : ℚ :=
  match startTime with
  | some t => now - t
  | none => 0

/-! ## Worker routine (voice_ptt.py `_record_and_transcribe`)

The worker starts the recorder, waits for the stop signal, stops the
recorder, and — when an audio file was produced — transcribes it, types
any resulting text, and deletes the file.  The environment supplies the
chunks the capture callback delivered while recording and the
transcription backend (`Transcriber.transcribe_audio`, which catches all
its own exceptions and returns `None` on failure, so it is modelled as a
total function into `Option String`). -/

/-- Observable effects of one `_record_and_transcribe` run. -/
structure WorkerOutcome where
  producedFile : Option AudioFile
  transcribed : Option String
  typed : Option String
  deletedFiles : List AudioFile
  raised : Bool
deriving DecidableEq

/-- `_record_and_transcribe` (voice_ptt.py lines 130-186).  If
`start_recording` raises, the `except` block resets `is_recording` and the
`finally` block additionally sets `should_stop`.  Otherwise the callback
appends `chunks` while recording, the poll loop exits once stop is
signalled, `stop_recording` runs, and when it returns a file the file is
transcribed (typing only if the text is non-empty — Python's `if text:`)
and then deleted by `cleanup_file` whether or not transcription yielded
text.  The `finally` block forces `is_recording := false` and
`should_stop := true` on every exit path. -/
def record_and_transcribe (r : Recorder) (cfg : DeviceConfig)
    (streamOk : Bool) (chunks : List Chunk)
    (transcribe : AudioFile → Option String) : WorkerOutcome × Recorder :=
  match start_recording r cfg streamOk with
  | (.errored, r1) =>
      ({ producedFile := none, transcribed := none, typed := none
       , deletedFiles := [], raised := true },
       { r1 with is_recording := false, should_stop := true })
  | (_, r1) =>
      let r2 : Recorder := { r1 with audio_data := r1.audio_data ++ chunks }
      match stop_recording r2 with
      | (some f, r3) =>
          let t := transcribe f
          ({ producedFile := some f, transcribed := t
           , typed := match t with
               | some s => if s = "" then none else some s
               | none => none
           , deletedFiles := [f], raised := false },
           { r3 with is_recording := false, should_stop := true })
      | (none, r3) =>
          ({ producedFile := none, transcribed := none, typed := none
           , deletedFiles := [], raised := false },
           { r3 with is_recording := false, should_stop := true })

/-! ## Text injection (text_input.py `TextTyper.type_text`)

The clipboard is modelled as a string threaded through the call; the AI
formatter (`AIFormatter.format_text`, which catches its own exceptions
and returns `None` or a possibly-empty string) is an abstract function;
`pasteRaises` models an exception anywhere inside the `try` block. -/

/-- Result of a `type_text` call: the clipboard content on return and the
text that was pasted, if any. -/
structure TypeTextResult where
  finalClipboard : String
  pasted : Option String
deriving DecidableEq, Repr

/-- `TextTyper.type_text` (text_input.py lines 32-78).  Empty text is an
immediate no-op.  When pass-through is enabled and a formatter is
present, the text is routed through it and replaced only by a truthy
(non-`None`, non-empty) result.  The original clipboard is saved, the
(possibly formatted) text copied in, the paste keystroke issued and the
original clipboard restored — and the `except` handler restores the
original clipboard too when anything in the `try` block raises. -/
def type_text (formatter : Option (String → Option String))
    (ai_passthrough : Bool) (clip0 : String) (text0 : String)
    (pasteRaises : Bool) : TypeTextResult :=
  if text0 = "" then
    { finalClipboard := clip0, pasted := none }
  else
    let text :=
      match formatter, ai_passthrough with
      | some fmt, true =>
          match fmt text0 with
          | some processed => if processed = "" then text0 else processed
          | none => text0
      | _, _ => text0
    -- original_clipboard := pyperclip.paste()
    let original_clipboard := clip0
    if pasteRaises then
      -- exception inside the try block: handler restores the clipboard
      { finalClipboard := original_clipboard, pasted := none }
    else
      -- copy text, paste keystroke, restore original clipboard
      { finalClipboard := original_clipboard, pasted := some text }

/-! ## Transcription text normalization (transcription.py lines 121-123)

`text.replace('\n', ' ').replace('\r', ' ')` followed by
`' '.join(text.split())`.  Python strings are modelled as `List Char`.
`str.split()` with no argument splits on runs of whitespace and drops
empty pieces; the relevant whitespace characters are the ASCII ones. -/

/-- The ASCII whitespace characters recognised by Python's `str.split()`:
space, tab, newline, vertical tab, form feed, carriage return. -/
def isPySpace (c : Char) : Bool :=
  c = ' ' || c = '\t' || c = '\n' || c = '\x0b' || c = '\x0c' || c = '\r'

/-- Python `str.replace(a, b)` for single characters. -/
def pyReplace (a b : Char) (l : List Char) : List Char :=
  l.map (fun c => if c = a then b else c)

/-- Accumulator worker for `str.split()`: `cur` holds the current word in
reverse order. -/
def pySplitAux : List Char → List Char → List (List Char)
  | [], cur => if cur = [] then [] else [cur.reverse]
  | c :: cs, cur =>
      if isPySpace c then
        if cur = [] then pySplitAux cs []
        else cur.reverse :: pySplitAux cs []
      else pySplitAux cs (c :: cur)

/-- Python `text.split()` (no separator): maximal runs of
non-whitespace characters, in order. -/
def pySplit (l : List Char) : List (List Char) := pySplitAux l []

/-- transcription.py lines 121-123: replace `'\n'` and `'\r'` with
spaces, then `' '.join(text.split())`. -/
def normalize (l : List Char) : List Char :=
  List.intercalate [' '] (pySplit (pyReplace '\r' ' ' (pyReplace '\n' ' ' l)))

/-! ## Controller state machine (voice_ptt.py `toggle_recording`)

`toggle_recording` runs under `self._thread_lock`, so toggle events are
processed serially; the worker's own transitions (finishing on its own)
are modelled as separate atomic events.  Each recording session ever
started is tracked with a status; `recording_thread` is modelled as an
optional index into that session list.  A session is *live* while its
worker is meant to be capturing or draining (Recording / Finishing); a
session force-cleaned by the controller is marked abandoned (its recorder
is stopped, its stream closed and its thread handle discarded), and a
session whose worker ran to completion is marked completed. -/

/-- Status of one recording session. -/
inductive SessionStatus where
  | recording
  | finishing
  | completed
  | abandoned
deriving DecidableEq, Repr

/-- A session counts as live while Recording or Finishing. -/
def sessionLive : SessionStatus → Bool
  | .recording => true
  | .finishing => true
  | _ => false

/-- Controller state: the recorder's `is_recording` flag as the toggle
handler reads it, the `recording_thread` handle (index of the session it
was started for), and the statuses of all sessions started so far. -/
structure Ctrl where
  isRecording : Bool
  handle : Option Nat
  sessions : List SessionStatus
deriving DecidableEq, Repr

/-- Initial controller state (`VoiceTypingApp.__init__`):
`recording_thread = None`, recorder idle, no sessions yet. -/
def Ctrl.init : Ctrl := { isRecording := false, handle := none, sessions := [] }

/-- `self.recording_thread and self.recording_thread.is_alive()`: the
handle exists and its session's worker has not terminated. -/
def threadAlive (s : Ctrl) : Bool :=
  match s.handle with
  | none => false
  | some i =>
      match s.sessions.get? i with
      | some st => sessionLive st
      | none => false

/-- `_force_cleanup_thread` (voice_ptt.py lines 97-128): stop the
recorder, close the stream, mark the thread abandoned and drop the
handle.  No-op when there is no thread handle. -/
def forceCleanup (s : Ctrl) : Ctrl :=
  match s.handle with
  | none => s
  | some i =>
      { isRecording := false, handle := none
      , sessions := s.sessions.set i .abandoned }

/-- Events processed by the controller.  `toggle joinCompletes` is one
hotkey toggle; on the stop path `joinCompletes` resolves whether the
worker finishes within the dynamic timeout of the `join` (it is ignored
on the start path).  `workerDone` is the live worker finishing on its
own (normally or through its exception handler). -/
inductive CtrlEvent where
  | toggle (joinCompletes : Bool)
  | workerDone
deriving DecidableEq, Repr

/-- `toggle_recording` (voice_ptt.py lines 43-70) under the thread lock.
Start path (`is_recording` false): when the previous worker is still
alive, `_force_cleanup_thread` runs first; then a fresh worker thread is
started for a new session (which begins recording).  Stop path: with a
live handle, `_stop_recording_thread` signals stop and joins with the
dynamic timeout — on a completed join the handle is cleared and the
session has completed; on a timeout `_force_cleanup_thread` abandons it.
With no handle `_stop_recording_thread` does nothing. -/
def toggleStep (s : Ctrl) (joinCompletes : Bool) : Ctrl :=
  if s.isRecording = false then
    let s1 := if threadAlive s then forceCleanup s else s
    { isRecording := true, handle := some s1.sessions.length
    , sessions := s1.sessions ++ [.recording] }
  else
    match s.handle with
    | none => s
    | some i =>
        if joinCompletes then
          { isRecording := false, handle := none
          , sessions := s.sessions.set i .completed }
        else
          { isRecording := false, handle := none
          , sessions := s.sessions.set i .abandoned }

/-- The live worker finishing on its own: its `finally` block clears
`is_recording`, and the thread is no longer alive (the handle object
remains until the next toggle).  No-op when no live worker exists. -/
def workerDoneStep (s : Ctrl) : Ctrl :=
  match s.handle with
  | none => s
  | some i =>
      match s.sessions.get? i with
      | some st =>
          if sessionLive st then
            { isRecording := false, handle := s.handle
            , sessions := s.sessions.set i .completed }
          else s
      | none => s

/-- One controller event. -/
def ctrlStep (s : Ctrl) : CtrlEvent → Ctrl
  | .toggle j => toggleStep s j
  | .workerDone => workerDoneStep s

/-- Run a sequence of events from a state. -/
def ctrlRun (s : Ctrl) (evs : List CtrlEvent) : Ctrl :=
  evs.foldl ctrlStep s

/-- Number of live (Recording or Finishing) sessions. -/
def liveCount (s : Ctrl) : Nat := s.sessions.countP sessionLive

/-- Position `j` of the session list holds a live session. -/
def LiveAt (s : Ctrl) (j : Nat) : Prop :=
  ∃ st, s.sessions.get? j = some st ∧ sessionLive st = true

/-- Controller invariant: every live session is the one the worker handle
points to (hence there can be at most one). -/
def CtrlInv (s : Ctrl) : Prop := ∀ j, LiveAt s j → s.handle = some j

/-! ## Theorems -/

/-- C2: for every nonnegative elapsed recording duration `d` (seconds), the
bounded wait used when joining the worker on a stop transition equals
`max(30, 30 + 10 * floor(d / 60))` seconds — a base of 30 seconds plus 10
seconds per whole minute recorded. -/
theorem stop_timeout_scales (d : ℚ) (h : 0 ≤ d) :
    dynamic_timeout d = max 30 (30 + 10 * ⌊d / 60⌋) := by
  have h60 : (0:ℚ) ≤ d / 60 := by positivity
  simp [dynamic_timeout, pyInt, h60, mul_comm]

/-- Witness for `stop_timeout_scales` at `d = 90` seconds. -/
theorem stop_timeout_scales_witness :
    dynamic_timeout 90 = max 30 (30 + 10 * ⌊(90:ℚ) / 60⌋) :=
  stop_timeout_scales 90 (by norm_num)

/-- C4 counterexample: calling `start_recording` on a recorder that is
already recording does not fail with any error — it returns as a silent
no-op, leaving the recorder (configuration and chunk buffer included)
exactly as it was. -/
theorem start_recording_busy_counterexample :
    start_recording { Recorder.init with is_recording := true }
        { device := some 0, rate := 44100, channels := 1 } true
      = (.noop, { Recorder.init with is_recording := true }) ∧
    (start_recording { Recorder.init with is_recording := true }
        { device := some 0, rate := 44100, channels := 1 } true).1 ≠ .errored := by
  constructor <;> decide

/-- C4 (amended): when the recorder's state is not Idle (`is_recording`
already true), `start_recording` returns immediately as a silent no-op —
no error is raised and the recorder's configuration and chunk buffer are
not modified. -/
theorem start_recording_busy_silent_noop (r : Recorder) (cfg : DeviceConfig)
    (streamOk : Bool) (h : r.is_recording = true) :
    start_recording r cfg streamOk = (.noop, r) := by
  simp [start_recording, h]

/-- Witness for `start_recording_busy_silent_noop` on a concrete busy
recorder. -/
theorem start_recording_busy_silent_noop_witness :
    start_recording { Recorder.init with is_recording := true }
        { device := some 1, rate := 48000, channels := 2 } false
      = (.noop, { Recorder.init with is_recording := true }) :=
  start_recording_busy_silent_noop _ _ _ rfl

/-- C5: `stop_recording` returns `None` whenever zero chunks were
collected — both when called in Idle with an empty buffer (in which case
it is a state-preserving no-op, hence idempotent: a second call returns
`None` again) and after a start that delivered no chunks — and it never
produces an audio file in those cases. -/
theorem stop_recording_empty_returns_none (r : Recorder)
    (h : r.audio_data = []) :
    (stop_recording r).1 = none ∧
    (stop_recording (stop_recording r).2).1 = none ∧
    (r.is_recording = false → stop_recording r = (none, r)) := by
  cases hrec : r.is_recording <;>
    simp [stop_recording, h, hrec]

/-- Witness for `stop_recording_empty_returns_none`: a recorder that was
started (no chunks delivered) and a recorder already Idle. -/
theorem stop_recording_empty_returns_none_witness :
    (stop_recording { Recorder.init with is_recording := true }).1 = none ∧
    (stop_recording (stop_recording
        { Recorder.init with is_recording := true }).2).1 = none ∧
    (({ Recorder.init with is_recording := true } : Recorder).is_recording
        = false →
      stop_recording { Recorder.init with is_recording := true }
        = (none, { Recorder.init with is_recording := true })) :=
  stop_recording_empty_returns_none { Recorder.init with is_recording := true } rfl

/-- C6: in every worker cycle, the set of deleted audio files is exactly
the set of produced audio files — the file is deleted whether
transcription returned text or failed (`transcribe` is arbitrary,
covering the backend-error-caught-as-`None` case) — and on every exit
path (including a raised start exception) the recorder is forced back to
Idle. -/
theorem worker_deletes_file_and_resets (r : Recorder) (cfg : DeviceConfig)
    (streamOk : Bool) (chunks : List Chunk)
    (transcribe : AudioFile → Option String) :
    (record_and_transcribe r cfg streamOk chunks transcribe).1.deletedFiles
      = (record_and_transcribe r cfg streamOk chunks
          transcribe).1.producedFile.toList ∧
    (record_and_transcribe r cfg streamOk chunks
        transcribe).2.is_recording = false := by
  unfold record_and_transcribe
  rcases hs : start_recording r cfg streamOk with ⟨o, r1⟩
  cases o
  case errored => simp
  all_goals
    rcases hstop : stop_recording { r1 with audio_data := r1.audio_data ++ chunks }
      with ⟨f?, r3⟩
  all_goals cases f? <;> simp [hstop]

/-- C7: the clipboard content after `type_text` completes equals the
clipboard content before the call, for every input text, on the success
path and on every failure path (the error handler restores it too),
assuming no concurrent clipboard writers. -/
theorem inject_preserves_clipboard (formatter : Option (String → Option String))
    (ai_passthrough : Bool) (clip0 text0 : String) (pasteRaises : Bool) :
    (type_text formatter ai_passthrough clip0 text0 pasteRaises).finalClipboard
      = clip0 := by
  by_cases h : text0 = "" <;> cases pasteRaises <;> simp [type_text, h]

/-- C10: when AI pass-through is enabled and the formatting backend fails
(`format_text` returns `None` or an empty string), `type_text` falls back
to injecting the original transcribed text unchanged. -/
theorem ai_failure_falls_back_to_original (fmt : String → Option String)
    (clip0 text0 : String) (h0 : text0 ≠ "")
    (hf : fmt text0 = none ∨ fmt text0 = some "") :
    (type_text (some fmt) true clip0 text0 false).pasted = some text0 := by
  rcases hf with hf | hf <;> simp [type_text, h0, hf]

/-- Witness for `ai_failure_falls_back_to_original` with a formatter that
always fails. -/
theorem ai_failure_falls_back_to_original_witness :
    (type_text (some (fun _ => none)) true "clip" "hello" false).pasted
      = some "hello" :=
  ai_failure_falls_back_to_original (fun _ => none) "clip" "hello"
    (by decide) (Or.inl rfl)

/-- C9: a device whose native default sample rate is in the ranked
preference list gets that native rate as the initial candidate; any other
native rate falls back to 44100; and a default device reporting 48000 Hz
whose validation succeeds yields a 48000 Hz mono configuration through
the primary path, no fallback exercised. -/
theorem native_rate_preference (env : DevEnv) :
    (env.nativeRate ∈ PREFERRED_SAMPLE_RATES →
      pick_initial_rate env.nativeRate = env.nativeRate) ∧
    (env.nativeRate ∉ PREFERRED_SAMPLE_RATES →
      pick_initial_rate env.nativeRate = 44100) ∧
    (env.nativeRate = 48000 → env.check CHANNELS 48000 = true →
      get_audio_device_info env =
        ({ device := some env.defaultInput, rate := 48000
         , channels := CHANNELS }, .primary)) := by
  refine ⟨fun h => ?_, fun h => ?_, fun h48 hchk => ?_⟩
  · simp [pick_initial_rate, h]
  · simp [pick_initial_rate, h]
  · have hpick : pick_initial_rate env.nativeRate = 48000 := by
      rw [h48]; decide
    unfold get_audio_device_info get_audio_device_info_inner
    rw [hpick]
    simp [hchk, h48]

/-- Witness for `native_rate_preference`: one input-capable default device
at 48000 Hz with validation succeeding. -/
theorem native_rate_preference_witness :
    get_audio_device_info ⟨0, 48000, fun _ _ => true⟩
      = ({ device := some 0, rate := 48000, channels := CHANNELS }, .primary) :=
  (native_rate_preference ⟨0, 48000, fun _ _ => true⟩).2.2 rfl rfl

/-- C3 counterexample: when validation fails for the default rate, every
remaining preferred rate and the stereo retry, `get_audio_device_info`
does not return a `NoCompatibleConfig` error — the internally raised
exception is caught by the function's own outer handler, which returns
the system-default configuration `(None, 44100, 1)`. -/
theorem no_compatible_config_counterexample :
    get_audio_device_info_inner ⟨0, 48000, fun _ _ => false⟩
      = .error "Could not find compatible audio configuration" ∧
    get_audio_device_info ⟨0, 48000, fun _ _ => false⟩
      = ({ device := none, rate := 44100, channels := CHANNELS }
        , .outerDefault) := by
  constructor <;> rfl

/-- C3 (amended): when validation fails for the default rate, for every
remaining preferred rate and for the stereo retry, the inner selection
raises the no-compatible-configuration exception, but the function's own
outer handler catches it and returns the system-default fallback
configuration `(None, 44100, 1)` instead of propagating an error. -/
theorem no_compatible_config_falls_back (env : DevEnv)
    (hall : ∀ rate ∈ PREFERRED_SAMPLE_RATES, env.check CHANNELS rate = false)
    (hstereo : env.check 2 env.nativeRate = false) :
    get_audio_device_info_inner env
      = .error "Could not find compatible audio configuration" ∧
    get_audio_device_info env
      = ({ device := none, rate := 44100, channels := CHANNELS }
        , .outerDefault) := by
  have hpick : pick_initial_rate env.nativeRate ∈ PREFERRED_SAMPLE_RATES := by
    unfold pick_initial_rate
    split
    · assumption
    · decide
  have h1 : env.check CHANNELS (pick_initial_rate env.nativeRate) = false :=
    hall _ hpick
  have c1 : env.check CHANNELS 44100 = false := hall 44100 (by decide)
  have c2 : env.check CHANNELS 48000 = false := hall 48000 (by decide)
  have c3 : env.check CHANNELS 16000 = false := hall 16000 (by decide)
  have c4 : env.check CHANNELS 22050 = false := hall 22050 (by decide)
  have c5 : env.check CHANNELS 8000 = false := hall 8000 (by decide)
  constructor
  · simp [get_audio_device_info_inner, PREFERRED_SAMPLE_RATES, List.find?,
          h1, hstereo, c1, c2, c3, c4, c5]
  · simp [get_audio_device_info, get_audio_device_info_inner,
          PREFERRED_SAMPLE_RATES, List.find?, h1, hstereo, c1, c2, c3, c4, c5]

/-- Witness for `no_compatible_config_falls_back`: a device whose
validation check always fails. -/
theorem no_compatible_config_falls_back_witness :
    get_audio_device_info_inner ⟨5, 96000, fun _ _ => false⟩
      = .error "Could not find compatible audio configuration" ∧
    get_audio_device_info ⟨5, 96000, fun _ _ => false⟩
      = ({ device := none, rate := 44100, channels := CHANNELS }
        , .outerDefault) :=
  no_compatible_config_falls_back ⟨5, 96000, fun _ _ => false⟩
    (fun _ _ => rfl) rfl

/-! ### Normalization helper lemmas -/

/-- Every word produced by `pySplitAux` (from a whitespace-free partial
word) is nonempty and whitespace-free. -/
theorem pySplitAux_words (l : List Char) :
    ∀ cur, (∀ c ∈ cur, isPySpace c = false) →
      ∀ w ∈ pySplitAux l cur, w ≠ [] ∧ ∀ c ∈ w, isPySpace c = false := by
  induction l with
  | nil =>
      intro cur hcur w hw
      by_cases h : cur = []
      · simp [pySplitAux, h] at hw
      · simp [pySplitAux, h] at hw
        subst hw
        refine ⟨by simpa using h, fun c hc => hcur c (by simpa using hc)⟩
  | cons a t ih =>
      intro cur hcur w hw
      by_cases hsp : isPySpace a
      · by_cases h : cur = []
        · simp [pySplitAux, hsp, h] at hw
          exact ih [] (by simp) w hw
        · simp [pySplitAux, hsp, h] at hw
          rcases hw with hw | hw
          · subst hw
            refine ⟨by simpa using h, fun c hc => hcur c (by simpa using hc)⟩
          · exact ih [] (by simp) w hw
      · simp only [Bool.not_eq_true] at hsp
        simp [pySplitAux, hsp] at hw
        refine ih (a :: cur) ?_ w hw
        intro c hc
        rcases List.mem_cons.1 hc with hc | hc
        · subst hc; exact hsp
        · exact hcur c hc

/-- Every word produced by `pySplit` is nonempty and whitespace-free. -/
theorem pySplit_words (l : List Char) :
    ∀ w ∈ pySplit l, w ≠ [] ∧ ∀ c ∈ w, isPySpace c = false :=
  pySplitAux_words l [] (by simp)

/-- Feeding a whitespace-free word into `pySplitAux` just accumulates it. -/
theorem pySplitAux_append_word :
    ∀ (w : List Char), (∀ c ∈ w, isPySpace c = false) →
    ∀ rest cur, pySplitAux (w ++ rest) cur = pySplitAux rest (w.reverse ++ cur)
  | [], _, rest, cur => by simp
  | a :: t, hw, rest, cur => by
      have ha : isPySpace a = false := hw a (by simp)
      simp only [List.cons_append, pySplitAux, ha, Bool.false_eq_true, if_false,
        List.append_eq]
      rw [pySplitAux_append_word t (fun c hc => hw c (by simp [hc])) rest (a :: cur)]
      congr 1
      simp

/-- `pySplit` of a single nonempty whitespace-free word. -/
theorem pySplit_word_nil (w : List Char) (hne : w ≠ [])
    (hnsp : ∀ c ∈ w, isPySpace c = false) : pySplit w = [w] := by
  unfold pySplit
  rw [← List.append_nil w, pySplitAux_append_word w hnsp [] []]
  simp [pySplitAux, hne]

/-- `pySplit` of a nonempty whitespace-free word, a space, and a rest. -/
theorem pySplit_word_cons (w rest : List Char) (hne : w ≠ [])
    (hnsp : ∀ c ∈ w, isPySpace c = false) :
    pySplit (w ++ ' ' :: rest) = w :: pySplit rest := by
  unfold pySplit
  rw [pySplitAux_append_word w hnsp (' ' :: rest) []]
  simp [pySplitAux, hne, isPySpace]

/-- Unfolding `intercalate` on a two-or-more-element list. -/
theorem intercalate_space_cons_cons (w w' : List Char) (t : List (List Char)) :
    List.intercalate [' '] (w :: w' :: t)
      = w ++ ' ' :: List.intercalate [' '] (w' :: t) := by
  simp [List.intercalate, List.intersperse]

/-- Splitting undoes joining nonempty whitespace-free words with single
spaces. -/
theorem pySplit_intercalate :
    ∀ (ws : List (List Char)),
      (∀ w ∈ ws, w ≠ [] ∧ ∀ c ∈ w, isPySpace c = false) →
      pySplit (List.intercalate [' '] ws) = ws
  | [], _ => by simp [List.intercalate, pySplit, pySplitAux]
  | [w], h => by
      have hw := h w (by simp)
      rw [show List.intercalate [' '] [w] = w by simp [List.intercalate]]
      exact pySplit_word_nil w hw.1 hw.2
  | w :: w' :: t, h => by
      have hw := h w (by simp)
      rw [intercalate_space_cons_cons]
      rw [pySplit_word_cons w _ hw.1 hw.2]
      rw [pySplit_intercalate (w' :: t) (fun x hx => h x (List.mem_cons_of_mem _ hx))]

/-- Every character of a single-space intercalation is a space or a word
character. -/
theorem mem_intercalate_words :
    ∀ (ws : List (List Char)) (c : Char), c ∈ List.intercalate [' '] ws →
      c = ' ' ∨ ∃ w ∈ ws, c ∈ w
  | [], c => by simp [List.intercalate]
  | [w], c => by
      rw [show List.intercalate [' '] [w] = w by simp [List.intercalate]]
      intro hc
      exact Or.inr ⟨w, by simp, hc⟩
  | w :: w' :: t, c => by
      rw [intercalate_space_cons_cons]
      intro hc
      rcases List.mem_append.1 hc with h | h
      · exact Or.inr ⟨w, by simp, h⟩
      · rcases List.mem_cons.1 h with h | h
        · exact Or.inl h
        · rcases mem_intercalate_words (w' :: t) c h with h | ⟨x, hx, hcx⟩
          · exact Or.inl h
          · exact Or.inr ⟨x, List.mem_cons_of_mem _ hx, hcx⟩

/-- Adjacent characters inside a whitespace-free word are never both
whitespace. -/
theorem chain_ok_of_word (w : List Char)
    (hnsp : ∀ c ∈ w, isPySpace c = false) :
    List.Chain' (fun a b => ¬(isPySpace a = true ∧ isPySpace b = true)) w := by
  induction w with
  | nil => exact List.chain'_nil
  | cons a t ih =>
      rw [List.chain'_cons']
      refine ⟨fun y _ hcon => ?_, ih (fun c hc => hnsp c (by simp [hc]))⟩
      have := hnsp a (by simp)
      rw [this] at hcon
      exact absurd hcon.1 (by simp)

/-- The head of an intercalation of nonempty words is the head of the
first word. -/
theorem head?_intercalate_cons (w' : List Char) (t : List (List Char))
    (hne : w' ≠ []) :
    (List.intercalate [' '] (w' :: t)).head? = w'.head? := by
  cases t with
  | nil => rw [show List.intercalate [' '] [w'] = w' by simp [List.intercalate]]
  | cons x xs =>
      rw [intercalate_space_cons_cons]
      cases w' with
      | nil => exact absurd rfl hne
      | cons a s => simp

/-- A single-space intercalation of nonempty whitespace-free words has no
two adjacent whitespace characters. -/
theorem chain_ok_intercalate :
    ∀ (ws : List (List Char)),
      (∀ w ∈ ws, w ≠ [] ∧ ∀ c ∈ w, isPySpace c = false) →
      List.Chain' (fun a b => ¬(isPySpace a = true ∧ isPySpace b = true))
        (List.intercalate [' '] ws)
  | [], _ => by simp [List.intercalate]
  | [w], h => by
      rw [show List.intercalate [' '] [w] = w by simp [List.intercalate]]
      exact chain_ok_of_word w (h w (by simp)).2
  | w :: w' :: t, h => by
      rw [intercalate_space_cons_cons]
      rw [List.chain'_append]
      refine ⟨chain_ok_of_word w (h w (by simp)).2, ?_, ?_⟩
      · rw [List.chain'_cons']
        refine ⟨fun y hy hcon => ?_,
          chain_ok_intercalate (w' :: t)
            (fun x hx => h x (List.mem_cons_of_mem _ hx))⟩
        have hw' := h w' (by simp)
        rw [head?_intercalate_cons w' t hw'.1] at hy
        have hmem : y ∈ w' := List.mem_of_mem_head? hy
        have := hw'.2 y hmem
        rw [this] at hcon
        exact absurd hcon.2 (by simp)
      · intro x hx y _ hcon
        have hxw : x ∈ w := List.mem_of_mem_getLast? hx
        have := (h w (by simp)).2 x hxw
        rw [this] at hcon
        exact absurd hcon.1 (by simp)

/-- `pyReplace` leaves a list without the replaced character unchanged. -/
theorem pyReplace_eq_self (a b : Char) (l : List Char)
    (h : ∀ c ∈ l, c ≠ a) : pyReplace a b l = l := by
  induction l with
  | nil => rfl
  | cons x t ih =>
      have hx : x ≠ a := h x (by simp)
      simp only [pyReplace, List.map_cons, if_neg hx]
      exact congrArg (List.cons x) (ih (fun c hc => h c (by simp [hc])))

/-- Characters of `normalize`'s output are never whitespace other than a
single space: each is `' '` or a whitespace-free word character. -/
theorem normalize_char_space_or_word (l : List Char) (c : Char)
    (hc : c ∈ normalize l) :
    c = ' ' ∨ isPySpace c = false := by
  rcases mem_intercalate_words _ c hc with h | ⟨w, hw, hcw⟩
  · exact Or.inl h
  · exact Or.inr ((pySplit_words _ w hw).2 c hcw)

/-- C8: the transcription normalization — replace `'\n'` and `'\r'` with
spaces, then split on whitespace and rejoin with single spaces — is
idempotent, and its output contains no line breaks and no two adjacent
whitespace characters. -/
theorem normalize_idempotent (l : List Char) :
    normalize (normalize l) = normalize l ∧
    (∀ c ∈ normalize l, c ≠ '\n' ∧ c ≠ '\r') ∧
    List.Chain' (fun a b => ¬(isPySpace a = true ∧ isPySpace b = true))
      (normalize l) := by
  have hnl : ∀ c ∈ normalize l, c ≠ '\n' ∧ c ≠ '\r' := by
    intro c hc
    rcases normalize_char_space_or_word l c hc with h | h
    · subst h; exact ⟨by decide, by decide⟩
    · constructor <;> rintro rfl <;> simp [isPySpace] at h
  refine ⟨?_, hnl, ?_⟩
  · show List.intercalate [' ']
        (pySplit (pyReplace '\r' ' ' (pyReplace '\n' ' ' (normalize l))))
      = normalize l
    rw [pyReplace_eq_self '\n' ' ' (normalize l) (fun c hc => (hnl c hc).1)]
    rw [pyReplace_eq_self '\r' ' ' (normalize l) (fun c hc => (hnl c hc).2)]
    show List.intercalate [' ']
        (pySplit (List.intercalate [' ']
          (pySplit (pyReplace '\r' ' ' (pyReplace '\n' ' ' l)))))
      = normalize l
    rw [pySplit_intercalate _ (pySplit_words _)]
    rfl
  · exact chain_ok_intercalate _ (pySplit_words _)

/-! ### Controller invariant lemmas -/

/-- A list in which any two positions holding elements satisfying `p`
coincide contains at most one such element. -/
theorem countP_le_one_of_unique {α : Type} (p : α → Bool) (l : List α)
    (h : ∀ j k a b, l.get? j = some a → l.get? k = some b →
      p a = true → p b = true → j = k) :
    l.countP p ≤ 1 := by
  induction l with
  | nil => simp
  | cons a t ih =>
      by_cases hpa : p a = true
      · have ht0 : t.countP p = 0 := by
          rw [List.countP_eq_zero]
          intro b hb hpb
          rcases List.mem_iff_get?.1 hb with ⟨j, hj⟩
          have := h (j + 1) 0 b a (by simpa using hj) (by simp) hpb hpa
          omega
        rw [List.countP_cons, ht0, if_pos hpa]
      · have ht : t.countP p ≤ 1 := by
          apply ih
          intro j k x y hj hk hx hy
          have := h (j + 1) (k + 1) x y (by simpa using hj) (by simpa using hk)
            hx hy
          omega
        rw [List.countP_cons, if_neg hpa]
        omega

/-- The initial controller state satisfies the invariant. -/
theorem ctrlInv_init : CtrlInv Ctrl.init := by
  rintro j ⟨st, hst, _⟩
  simp [Ctrl.init] at hst

/-- After `forceCleanup`, no session is live (given the invariant held). -/
theorem cleanup_no_live (s : Ctrl) (hInv : CtrlInv s) (j : Nat) :
    ¬ LiveAt (forceCleanup s) j := by
  rintro ⟨st, hget, hlive⟩
  cases hh : s.handle with
  | none =>
      simp only [forceCleanup, hh] at hget
      have := hInv j ⟨st, hget, hlive⟩
      simp [this] at hh
  | some i =>
      simp only [forceCleanup, hh] at hget
      by_cases hij : j = i
      · subst hij
        rw [List.get?_set_eq] at hget
        rcases ho : s.sessions.get? j with _ | st'
        · rw [ho] at hget; cases hget
        · rw [ho] at hget
          simp only [Option.map_eq_map, Option.map_some, Option.some.injEq]
            at hget
          rw [← hget] at hlive
          simp [sessionLive] at hlive
      · rw [List.get?_set_ne _ _ (Ne.symm hij)] at hget
        have := hInv j ⟨st, hget, hlive⟩
        rw [this] at hh
        exact hij (Option.some.inj hh)

/-- When the thread-liveness check fails, no session is live (given the
invariant held). -/
theorem no_live_of_not_alive (s : Ctrl) (hInv : CtrlInv s)
    (hna : threadAlive s = false) (j : Nat) : ¬ LiveAt s j := by
  rintro ⟨st, hget, hlive⟩
  have hh := hInv j ⟨st, hget, hlive⟩
  have hget' : s.sessions[j]? = some st := by
    rw [← List.get?_eq_getElem?]; exact hget
  simp [threadAlive, hh, hget', hlive] at hna

/-- One hotkey toggle preserves the controller invariant. -/
theorem ctrlInv_toggle (s : Ctrl) (hInv : CtrlInv s) (jc : Bool) :
    CtrlInv (toggleStep s jc) := by
  unfold toggleStep
  by_cases hrec : s.isRecording = false
  · rw [if_pos hrec]
    have hnolive : ∀ j,
        ¬ LiveAt (if threadAlive s then forceCleanup s else s) j := by
      intro j
      by_cases ha : threadAlive s
      · rw [if_pos ha]; exact cleanup_no_live s hInv j
      · rw [if_neg ha]; exact no_live_of_not_alive s hInv (by simpa using ha) j
    rintro j ⟨st, hget, hlive⟩
    by_cases hlt : j < (if threadAlive s then forceCleanup s else s).sessions.length
    · rw [List.get?_append hlt] at hget
      exact absurd ⟨st, hget, hlive⟩ (hnolive j)
    · by_cases heq : j = (if threadAlive s then forceCleanup s else s).sessions.length
      · subst heq; rfl
      · exfalso
        rw [List.get?_eq_none.2 (by simp; omega)] at hget
        cases hget
  · rw [if_neg hrec]
    cases hh : s.handle with
    | none => simpa only [hh] using hInv
    | some i =>
        simp only [hh]
        cases jc <;>
        · simp only [Bool.false_eq_true, if_false, if_true]
          rintro j ⟨st, hget, hlive⟩
          exfalso
          by_cases hij : j = i
          · subst hij
            rw [List.get?_set_eq] at hget
            rcases ho : s.sessions.get? j with _ | st'
            · rw [ho] at hget; cases hget
            · rw [ho] at hget
              simp only [Option.map_eq_map, Option.map_some,
                Option.some.injEq] at hget
              rw [← hget] at hlive
              simp [sessionLive] at hlive
          · rw [List.get?_set_ne _ _ (Ne.symm hij)] at hget
            have := hInv j ⟨st, hget, hlive⟩
            rw [this] at hh
            exact hij (Option.some.inj hh)

/-- The worker finishing on its own preserves the controller invariant. -/
theorem ctrlInv_workerDone (s : Ctrl) (hInv : CtrlInv s) :
    CtrlInv (workerDoneStep s) := by
  unfold workerDoneStep
  cases hh : s.handle with
  | none => simpa only [hh] using hInv
  | some i =>
      simp only [hh]
      cases ho : s.sessions.get? i with
      | none => simpa only [ho] using hInv
      | some st =>
          simp only [ho]
          by_cases hl : sessionLive st = true
          · rw [if_pos hl]
            rintro j ⟨st', hget, hlive⟩
            show some i = some j
            by_cases hij : j = i
            · subst hij
              exfalso
              rw [List.get?_set_eq] at hget
              rcases ho' : s.sessions.get? j with _ | st''
              · rw [ho'] at hget; cases hget
              · rw [ho'] at hget
                simp only [Option.map_eq_map, Option.map_some,
                  Option.some.injEq] at hget
                rw [← hget] at hlive
                simp [sessionLive] at hlive
            · rw [List.get?_set_ne _ _ (Ne.symm hij)] at hget
              rw [← hh]
              exact hInv j ⟨st', hget, hlive⟩
          · rw [if_neg hl]
            exact hInv

/-- Any event sequence preserves the controller invariant. -/
theorem ctrlInv_run (evs : List CtrlEvent) :
    ∀ s, CtrlInv s → CtrlInv (ctrlRun s evs) := by
  induction evs with
  | nil => intro s h; exact h
  | cons e t ih =>
      intro s h
      show CtrlInv (ctrlRun (ctrlStep s e) t)
      cases e with
      | toggle jc => exact ih _ (ctrlInv_toggle s h jc)
      | workerDone => exact ih _ (ctrlInv_workerDone s h)

/-- C1: for every sequence of controller events (hotkey toggles with
either join outcome, and workers finishing on their own), at most one
recording session is live (Recording or Finishing) at any instant: a
start request that finds the previous worker alive force-cleans it before
starting a new session, so two live sessions never coexist. -/
theorem at_most_one_live_session (evs : List CtrlEvent) :
    liveCount (ctrlRun Ctrl.init evs) ≤ 1 := by
  have hInv := ctrlInv_run evs Ctrl.init ctrlInv_init
  unfold liveCount
  apply countP_le_one_of_unique
  intro j k a b hj hk ha hb
  have h1 := hInv j ⟨a, hj, ha⟩
  have h2 := hInv k ⟨b, hk, hb⟩
  rw [h1] at h2
  exact Option.some.inj h2

end VoicePtt
